import Mathlib

/-!
Verification development for the workspace file-mutation and live-sync
subsystem of the `openclaw-ai-sdk` repository.

The mutation route handlers (`apps/web/app/api/workspace/{file,rename,move,
copy,mkdir}/route.ts`), the SSE watch route (`watch/route.ts`) and the
browser hook (`use-workspace-watcher.ts`) are translated below into pure
Lean functions over an explicit filesystem state.  The path-safety library
`apps/web/lib/workspace.ts` (`safeResolvePath`, `safeResolveNewPath`,
`isSystemFile`, workspace-root resolution) is not part of the available
sources; those functions are modelled from the specification and are marked
`Modelled from the spec:` in their doc comments.

Conventions of the embedding:
* JS strings are Lean `String`s; JS `startsWith` / `endsWith` / `includes`
  are defined on the underlying character lists.
* Absolute filesystem paths under the workspace root are represented by
  their canonical list of path segments (each segment nonempty and free of
  the separator); they are rendered back to genuine strings wherever the
  source code compares absolute paths as strings.
* The disk is a `WorkspaceFS`: a list of directory paths and a list of
  file paths with contents, each keyed by canonical segment list.
* Synchronous `node:fs` calls that may throw are given an explicit
  `ioErr : Option String` argument: `some m` means the first filesystem
  call inside the handler's try-block throws an exception whose `message`
  is `m`; `none` means the calls succeed.
-/

/-- JS `String.prototype.startsWith`, on character lists. -/
def jsStartsWith (s pre : String) : Bool :=
  List.isPrefixOf pre.data s.data

/-- JS `String.prototype.endsWith`, on character lists. -/
def jsEndsWith (s suf : String) : Bool :=
  List.isSuffixOf suf.data s.data

/-- JS `String.prototype.includes`, on character lists: `sub` occurs as a
contiguous infix of `s`. -/
def jsIncludes (s sub : String) : Bool :=
  decide (sub.data <:+: s.data)

/-- Whitespace for the purposes of JS `String.prototype.trim`. -/
def isJsSpace (c : Char) : Bool :=
  c = ' ' || c = '\t' || c = '\n' || c = '\r'

/-- JS `String.prototype.trim`, on character lists. -/
def jsTrim (s : String) : String :=
  String.mk (((s.data.dropWhile isJsSpace).reverse.dropWhile isJsSpace).reverse)

/-- Split a character list at `/` separators (the semantics of JS
`split("/")` and of Node's path parsing for forward-slash paths).
`acc` holds the characters of the current segment, reversed. -/
def splitSegsAux (acc : List Char) : List Char → List String
  | [] => [String.mk acc.reverse]
  | c :: rest =>
    if c = '/' then String.mk acc.reverse :: splitSegsAux [] rest
    else splitSegsAux (c :: acc) rest

/-- JS `path.split("/")` for a path string. -/
def splitPath (s : String) : List String :=
  splitSegsAux [] s.data

/-- Join path segments with `/` (inverse of `splitPath` on canonical
segment lists). -/
def joinSegs : List String → String
  | [] => ""
  | [s] => s
  | s :: t :: rest => s ++ "/" ++ joinSegs (t :: rest)

/-- Node `path.basename` on a relative slash path: the final segment. -/
def basenameStr (s : String) : String :=
  (splitPath s).getLastD ""

/-- Node `path.dirname` on a relative slash path: all but the final
segment, or `"."` when there is a single segment. -/
def dirnameStr (s : String) : String :=
  let parts := splitPath s
  if parts.length ≤ 1 then "." else joinSegs parts.dropLast

/-- Index of the last `'.'` in a character list, if any. -/
def lastDotIdx : List Char → Option Nat
  | [] => none
  | c :: rest =>
    match lastDotIdx rest with
    | some i => some (i + 1)
    | none => if c = '.' then some 0 else none

/-- Node `path.extname` on a base name: the substring from the last `'.'`
to the end, except that a dot in leading position (a dotfile) yields the
empty extension.  (Node's special-casing of the literal names `.` and `..`
is irrelevant here: the resolver never lets them reach this function.) -/
def extname (name : String) : String :=
  match lastDotIdx name.data with
  | none => ""
  | some 0 => ""
  | some (i + 1) => String.mk (name.data.drop (i + 1))

/-- Modelled from the spec: `WorkspaceRoot` is "a single absolute
directory path, resolved once per process"; the model fixes it as a
constant absolute path. -/
def DENCH_ROOT : String := "/workspace/dench"

/-- Render a canonical segment list as the absolute path string the route
handlers manipulate (`[]` is the workspace root itself). -/
def renderAbs (segs : List String) : String :=
  if segs = [] then DENCH_ROOT else DENCH_ROOT ++ "/" ++ joinSegs segs

/-- Modelled from the spec (§4.2 SystemFileClassifier) and the repository
plan document: a pure predicate on the final path segment, matching the
per-object metadata sidecar (`.object.yaml`), the embedded database file
(`workspace.duckdb` and companions sharing that prefix), the reserved
context file (`workspace_context.yaml`), and write-ahead-log / temp
companions (`*.wal`, `*.tmp`). -/
def isSystemFile (relativePath : String) : Bool :=
  let b := (splitPath relativePath).getLastD ""
  b == ".object.yaml" ||
  jsStartsWith b "workspace.duckdb" ||
  b == "workspace_context.yaml" ||
  jsEndsWith b ".wal" ||
  jsEndsWith b ".tmp"

/-- Modelled from the spec (§4.1 PathResolver, mode-independent part):
reject the empty string, backslash separators, absolute paths, and any
path containing a `..` segment (§8: "for all relative paths containing
`..` segments or resolving outside WorkspaceRoot, PathResolver returns a
rejection regardless of mode"); otherwise normalize away empty and `.`
segments and return the canonical workspace-relative segment list. -/
def resolveSegs (rel : String) : Option (List String) :=
  if rel = "" then none
  else if '\\' ∈ rel.data then none
  else if (splitPath rel).head? = some "" then none
  else if ".." ∈ splitPath rel then none
  else some ((splitPath rel).filter (fun s => !(s == "") && !(s == ".")))

/-- The workspace filesystem state: directories and files (with contents),
keyed by canonical workspace-relative segment lists. -/
structure WorkspaceFS where
  dirs : List (List String)
  files : List (List String × String)
deriving DecidableEq, Repr

/-- `fs.existsSync` at a canonical path: present as a directory or file. -/
def fsMem (fs : WorkspaceFS) (p : List String) : Prop :=
  p ∈ fs.dirs ∨ p ∈ fs.files.map Prod.fst

instance (fs : WorkspaceFS) (p : List String) : Decidable (fsMem fs p) := by
  unfold fsMem; exact instDecidableOr

/-- `statSync(p).isDirectory()` at a canonical path. -/
def fsIsDir (fs : WorkspaceFS) (p : List String) : Prop :=
  p ∈ fs.dirs

instance (fs : WorkspaceFS) (p : List String) : Decidable (fsIsDir fs p) := by
  unfold fsIsDir; exact inferInstance

/-- Content of the file at `p`, if any. -/
def fileContent (fs : WorkspaceFS) (p : List String) : Option String :=
  (fs.files.find? (fun f => f.1 == p)).map Prod.snd

/-- `rmSync(p, { recursive })`: remove the entry at `p` and everything
below it. -/
def fsRemove (fs : WorkspaceFS) (p : List String) : WorkspaceFS where
  dirs := fs.dirs.filter (fun d => !(List.isPrefixOf p d))
  files := fs.files.filter (fun f => !(List.isPrefixOf p f.1))

/-- `renameSync(src, dst)`: transplant the subtree rooted at `src` to
`dst`. -/
def fsRename (fs : WorkspaceFS) (src dst : List String) : WorkspaceFS where
  dirs := fs.dirs.map
    (fun d => if List.isPrefixOf src d then dst ++ d.drop src.length else d)
  files := fs.files.map
    (fun f => if List.isPrefixOf src f.1 then (dst ++ f.1.drop src.length, f.2) else f)

/-- `cpSync(src, dst, { recursive })`: duplicate the subtree rooted at
`src` at `dst`, keeping the original. -/
def fsCopy (fs : WorkspaceFS) (src dst : List String) : WorkspaceFS where
  dirs := fs.dirs ++ fs.dirs.filterMap
    (fun d => if List.isPrefixOf src d then some (dst ++ d.drop src.length) else none)
  files := fs.files ++ fs.files.filterMap
    (fun f => if List.isPrefixOf src f.1 then some (dst ++ f.1.drop src.length, f.2) else none)

/-- The nonempty prefixes of a segment list, shortest first. -/
def nonemptyPrefixes (segs : List String) : List (List String) :=
  (List.range segs.length).map (fun i => segs.take (i + 1))

/-- `mkdirSync(p, { recursive: true })`: create the directory and all its
missing ancestors (existence in the model is membership, so re-adding an
existing ancestor is harmless). -/
def fsMkdirp (fs : WorkspaceFS) (segs : List String) : WorkspaceFS where
  dirs := fs.dirs ++ nonemptyPrefixes segs
  files := fs.files

/-- `writeFileSync(p, content)`: create or replace the file at `p`. -/
def fsWrite (fs : WorkspaceFS) (p : List String) (content : String) : WorkspaceFS where
  dirs := fs.dirs
  files := (p, content) :: fs.files.filter (fun f => !(f.1 == p))

/-- `safeResolvePath` of `lib/workspace.ts`.  Modelled from the spec
(§4.1, mode `mustExist`): validate and canonicalize, require the result
to be a proper descendant of the root, and fail when the canonical path
does not exist on disk. -/
def safeResolvePath (fs : WorkspaceFS) (rel : String) : Option (List String) :=
  match resolveSegs rel with
  | none => none
  | some segs =>
    if segs = [] then none
    else if fsMem fs segs then some segs else none

/-- `safeResolveNewPath` of `lib/workspace.ts`.  Modelled from the spec
(§4.1, mode `mayNotExist`): validate and canonicalize, require a proper
descendant of the root, but do not require the target to exist (its
missing ancestors are created by the callers). -/
def safeResolveNewPath (rel : String) : Option (List String) :=
  match resolveSegs rel with
  | none => none
  | some segs =>
    if segs = [] then none else some segs

/-- Outcome of a route handler: the JSON success payload, or an error
response with its HTTP status and `error` message. -/
inductive Resp (α : Type) where
  | ok (val : α)
  | err (status : Nat) (error : String)
deriving DecidableEq, Repr

/-- Success payload of `POST /api/workspace/rename`. -/
structure RenameOk where
  oldPath : String
  newPath : String
deriving DecidableEq, Repr

/-- Success payload of `POST /api/workspace/move`. -/
structure MoveOk where
  oldPath : String
  newPath : String
deriving DecidableEq, Repr

/-- Success payload of `POST /api/workspace/copy`. -/
structure CopyOk where
  sourcePath : String
  newPath : String
deriving DecidableEq, Repr

/-- `DELETE /api/workspace/file` (`file/route.ts`, `DELETE`): missing
field check, system-file guard, `safeResolvePath`, then
`statSync`/`rmSync` in a try-block.  Success echoes the relative path. -/
def deleteOp (fs : WorkspaceFS) (relPath : String) (ioErr : Option String) :
    Resp String × WorkspaceFS :=
  if relPath = "" then
    (Resp.err 400 "Missing \x27path\x27 field", fs)
  else if isSystemFile relPath then
    (Resp.err 403 "Cannot delete system file", fs)
  else
    match safeResolvePath fs relPath with
    | none => (Resp.err 404 "File not found or path traversal rejected", fs)
    | some segs =>
      match ioErr with
      | some m => (Resp.err 500 m, fs)
      | none => (Resp.ok relPath, fsRemove fs segs)

/-- `POST /api/workspace/file` (`file/route.ts`, `POST`): missing field
check, `safeResolveNewPath` (the file may not exist yet), then
`mkdirSync(dirname(absPath), { recursive: true })` and `writeFileSync`
in a try-block.  No system-file check is performed. -/
def writeOp (fs : WorkspaceFS) (relPath content : String) (ioErr : Option String) :
    Resp String × WorkspaceFS :=
  if relPath = "" then
    (Resp.err 400 "Missing \x27path\x27 and \x27content\x27 fields", fs)
  else
    match safeResolveNewPath relPath with
    | none => (Resp.err 400 "Invalid path or path traversal rejected", fs)
    | some segs =>
      match ioErr with
      | some m => (Resp.err 500 m, fs)
      | none => (Resp.ok relPath, fsWrite (fsMkdirp fs segs.dropLast) segs content)

/-- The relative target path computed by the rename route:
`dirname(relPath)` joined with the new base name. -/
def mkNewRelPath (relPath newName : String) : String :=
  let parentRel := dirnameStr relPath
  if parentRel == "." then newName else parentRel ++ "/" ++ newName

/-- `POST /api/workspace/rename` (`rename/route.ts`): missing-field and
system-file guards, `newName` validation (no separators, nonempty after
trimming), `safeResolvePath` on the source, sibling target computed from
`dirname(absPath)` and re-validated through `safeResolveNewPath`,
conflict check with `existsSync`, then `renameSync` in a try-block. -/
def renameOp (fs : WorkspaceFS) (relPath newName : String) (ioErr : Option String) :
    Resp RenameOk × WorkspaceFS :=
  if relPath = "" ∨ newName = "" then
    (Resp.err 400 "Missing \x27path\x27 and \x27newName\x27 fields", fs)
  else if isSystemFile relPath then
    (Resp.err 403 "Cannot rename system file", fs)
  else if jsIncludes newName "/" || jsIncludes newName "\\" || jsTrim newName == "" then
    (Resp.err 400 "Invalid file name", fs)
  else
    match safeResolvePath fs relPath with
    | none => (Resp.err 404 "Source not found or path traversal rejected", fs)
    | some src =>
      match safeResolveNewPath (mkNewRelPath relPath newName) with
      | none => (Resp.err 400 "Invalid destination path", fs)
      | some _ =>
        if fsMem fs (src.dropLast ++ [newName]) then
          (Resp.err 409 ("A file named \x27" ++ newName ++ "\x27 already exists"), fs)
        else
          match ioErr with
          | some m => (Resp.err 500 m, fs)
          | none =>
            (Resp.ok ⟨relPath, mkNewRelPath relPath newName⟩,
              fsRename fs src (src.dropLast ++ [newName]))

/-- `POST /api/workspace/move` (`move/route.ts`): missing-field and
system-file guards, `safeResolvePath` on source and destination
directory, a directory-type check, the self-containment guard comparing
absolute path strings (`destDirAbs.startsWith(srcAbs + "/")` or string
equality), conflict check on `join(destDirAbs, basename(srcAbs))`, then
`renameSync` in a try-block. -/
def moveOp (fs : WorkspaceFS) (sourcePath destinationDir : String) (ioErr : Option String) :
    Resp MoveOk × WorkspaceFS :=
  if sourcePath = "" ∨ destinationDir = "" then
    (Resp.err 400 "Missing \x27sourcePath\x27 and \x27destinationDir\x27 fields", fs)
  else if isSystemFile sourcePath then
    (Resp.err 403 "Cannot move system file", fs)
  else
    match safeResolvePath fs sourcePath with
    | none => (Resp.err 404 "Source not found or path traversal rejected", fs)
    | some src =>
      match safeResolvePath fs destinationDir with
      | none => (Resp.err 404 "Destination not found or path traversal rejected", fs)
      | some dest =>
        if ¬ fsIsDir fs dest then
          (Resp.err 400 "Destination is not a directory", fs)
        else if jsStartsWith (renderAbs dest) (renderAbs src ++ "/") ||
            renderAbs dest == renderAbs src then
          (Resp.err 400 "Cannot move a folder into itself", fs)
        else if fsMem fs (dest ++ [src.getLastD ""]) then
          (Resp.err 409 ("\x27" ++ src.getLastD "" ++ "\x27 already exists in destination"), fs)
        else
          match ioErr with
          | some m => (Resp.err 500 m, fs)
          | none =>
            (Resp.ok ⟨sourcePath,
                if destinationDir == "." then src.getLastD ""
                else destinationDir ++ "/" ++ src.getLastD ""⟩,
              fsRename fs src (dest ++ [src.getLastD ""]))

/-- The stem computed by the copy route: `name.slice(0, -ext.length)` when
the name has an extension, the whole name otherwise. -/
def stemOf (name : String) : String :=
  if extname name = "" then name
  else String.mk (name.data.take (name.data.length - (extname name).data.length))

/-- The auto-derived duplicate name of the copy route: `" copy"` inserted
before the extension for names with one, appended otherwise. -/
def autoCopyName (name : String) : String :=
  if extname name = "" then stemOf name ++ " copy"
  else stemOf name ++ " copy" ++ extname name

/-- The auto-derived sibling destination of the copy route: the copy name
placed in the source's directory. -/
def autoCopyRel (relPath : String) : String :=
  if dirnameStr relPath == "." then autoCopyName (basenameStr relPath)
  else dirnameStr relPath ++ "/" ++ autoCopyName (basenameStr relPath)

/-- The destination relative path of the copy route: the caller-supplied
`destinationPath` when present and truthy (JS `""` is falsy), the
auto-derived sibling name otherwise. -/
def copyDestRel (relPath : String) (destinationPath : Option String) : String :=
  match destinationPath with
  | some d => if d = "" then autoCopyRel relPath else d
  | none => autoCopyRel relPath

/-- `POST /api/workspace/copy` (`copy/route.ts`): missing-field guard,
`safeResolvePath` on the source (no system-file check), destination
either supplied or auto-derived next to the original, validated through
`safeResolveNewPath`, conflict check, then `statSync`/`cpSync` in a
try-block. -/
def copyOp (fs : WorkspaceFS) (relPath : String) (destinationPath : Option String)
    (ioErr : Option String) : Resp CopyOk × WorkspaceFS :=
  if relPath = "" then
    (Resp.err 400 "Missing \x27path\x27 field", fs)
  else
    match safeResolvePath fs relPath with
    | none => (Resp.err 404 "Source not found or path traversal rejected", fs)
    | some src =>
      match safeResolveNewPath (copyDestRel relPath destinationPath) with
      | none => (Resp.err 400 "Invalid destination path", fs)
      | some destSegs =>
        if fsMem fs destSegs then
          (Resp.err 409 "Destination already exists", fs)
        else
          match ioErr with
          | some m => (Resp.err 500 m, fs)
          | none =>
            (Resp.ok ⟨relPath, copyDestRel relPath destinationPath⟩,
              fsCopy fs src destSegs)

/-- `POST /api/workspace/mkdir` (`mkdir/route.ts`): missing-field guard,
`safeResolveNewPath`, conflict check with `existsSync`, then
`mkdirSync(absPath, { recursive: true })` in a try-block. -/
def mkdirOp (fs : WorkspaceFS) (relPath : String) (ioErr : Option String) :
    Resp String × WorkspaceFS :=
  if relPath = "" then
    (Resp.err 400 "Missing \x27path\x27 field", fs)
  else
    match safeResolveNewPath relPath with
    | none => (Resp.err 400 "Invalid path or path traversal rejected", fs)
    | some segs =>
      if fsMem fs segs then
        (Resp.err 409 "Directory already exists", fs)
      else
        match ioErr with
        | some m => (Resp.err 500 m, fs)
        | none => (Resp.ok relPath, fsMkdirp fs segs)

/-- Debounce window of the SSE watch route, in milliseconds
(`watch/route.ts`, `setTimeout(..., 200)`). -/
def DEBOUNCE_MS : Nat := 200

/-- A raw filesystem change event as delivered to `sendEvent` in
`watch/route.ts`: the chokidar event type and the workspace-relative
path. -/
structure RawEvent where
  type : String
  path : String
deriving DecidableEq, Repr

/-- The debounce logic of `sendEvent` in `watch/route.ts`: each raw event
at time `t` clears the pending timer and schedules an emission of its own
payload at `t + DEBOUNCE_MS`; the emission happens only if no further
event arrives before that deadline.  Given the time-ordered list of raw
events, this returns the list of `change` notifications actually
enqueued, as `(time, payload)` pairs. -/
def debounceEmits : List (Nat × RawEvent) → List (Nat × RawEvent)
  | [] => []
  | [(t, e)] => [(t + DEBOUNCE_MS, e)]
  | (t₁, e₁) :: (t₂, e₂) :: rest =>
    if t₂ < t₁ + DEBOUNCE_MS then debounceEmits ((t₂, e₂) :: rest)
    else (t₁ + DEBOUNCE_MS, e₁) :: debounceEmits ((t₂, e₂) :: rest)

/-- Initial reconnect delay of `use-workspace-watcher.ts`
(`retryDelayRef = useRef(1000)`), in milliseconds. -/
def RETRY_INIT : Nat := 1000

/-- Reconnect delay cap of `use-workspace-watcher.ts`
(`Math.min(delay * 2, 30_000)`), in milliseconds. -/
def RETRY_CAP : Nat := 30000

/-- Connection-level events seen by the hook: the SSE connection fails
(one `error` event is dispatched on the `EventSource`), or the server's
`connected` acknowledgment arrives. -/
inductive ConnEvent where
  | failure
  | connectedAck
deriving DecidableEq, Repr

/-- All consecutive raw events are separated by strictly less than the
debounce window. -/
def gapsLtB : List (Nat × RawEvent) → Bool
  | [] => true
  | [_] => true
  | a :: b :: rest => decide (b.1 < a.1 + DEBOUNCE_MS) && gapsLtB (b :: rest)

/-- The backoff state machine of `use-workspace-watcher.ts` at the level
of individual handler invocations: each `failure` entry is ONE invocation
of `scheduleReconnect` — the current stored delay is observed (passed to
`setTimeout`) and the store becomes `min (delay * 2) RETRY_CAP` — and
each `connectedAck` entry is one run of the `connected` listener,
resetting the store to `RETRY_INIT`.  Returns the observed reconnect
delays, starting from stored delay `d`.  A single *connection* failure
triggers two `scheduleReconnect` invocations, not one — see
`dispatchedCalls`. -/
def observedDelays (d : Nat) : List ConnEvent → List Nat
  | [] => []
  | ConnEvent.failure :: rest => d :: observedDelays (min (d * 2) RETRY_CAP) rest
  | ConnEvent.connectedAck :: rest => observedDelays RETRY_INIT rest

/-- The handler invocations triggered by a sequence of connection-level
events: `connectSSE` registers BOTH `addEventListener("error", ...)`
(line 91) and `onerror` (line 98) with identical bodies, so the single
`error` event dispatched by one connection failure runs
`scheduleReconnect` twice (the first handler nulls the local
`eventSource` variable, but that does not stop the dispatch to the
second); the `connected` listener is registered once. -/
def dispatchedCalls : List ConnEvent → List ConnEvent
  | [] => []
  | ConnEvent.failure :: rest =>
    ConnEvent.failure :: ConnEvent.failure :: dispatchedCalls rest
  | ConnEvent.connectedAck :: rest =>
    ConnEvent.connectedAck :: dispatchedCalls rest

/-- The reconnect delays the hook actually observes for a sequence of
connection-level events: the invocation-level machine run over the
doubled error dispatch. -/
def hookObservedDelays (d : Nat) (l : List ConnEvent) : List Nat :=
  observedDelays d (dispatchedCalls l)

/-! ### Helper lemmas: strings, segments, rendering -/

theorem sdata_append (a b : String) : (a ++ b).data = a.data ++ b.data :=
  String.data_append a b

theorem string_eq_of_data {a b : String} (h : a.data = b.data) : a = b :=
  String.ext h

theorem joinSegs_cons (s : String) (l : List String) (h : l ≠ []) :
    joinSegs (s :: l) = s ++ "/" ++ joinSegs l := by
  cases l with
  | nil => exact absurd rfl h
  | cons t rest => rfl

theorem joinSegs_append (a b : List String) (ha : a ≠ []) (hb : b ≠ []) :
    joinSegs (a ++ b) = joinSegs a ++ "/" ++ joinSegs b := by
  induction a with
  | nil => exact absurd rfl ha
  | cons x xs ih =>
    cases xs with
    | nil =>
      rw [List.singleton_append, joinSegs_cons x b hb]
      rfl
    | cons y ys =>
      rw [List.cons_append, joinSegs_cons x ((y :: ys) ++ b) (by simp),
        ih (by simp) , joinSegs_cons x (y :: ys) (by simp)]
      simp [String.append_assoc]

theorem renderAbs_append (a b : List String) (hb : b ≠ []) :
    renderAbs (a ++ b) = renderAbs a ++ "/" ++ joinSegs b := by
  cases a with
  | nil =>
    rw [List.nil_append]
    unfold renderAbs
    rw [if_neg hb, if_pos rfl]
  | cons x xs =>
    unfold renderAbs
    rw [if_neg (by simp), if_neg (by simp),
      joinSegs_append (x :: xs) b (by simp) hb]
    simp [String.append_assoc]

theorem splitSegsAux_no_slash (cs : List Char) :
    ∀ acc : List Char, '/' ∉ acc → ∀ s ∈ splitSegsAux acc cs, '/' ∉ s.data := by
  induction cs with
  | nil =>
    intro acc hacc s hs
    simp only [splitSegsAux, List.mem_singleton] at hs
    subst hs
    simpa using fun h => hacc (List.mem_reverse.mp h)
  | cons c rest ih =>
    intro acc hacc s hs
    by_cases hc : c = '/'
    · rw [splitSegsAux, if_pos hc] at hs
      rcases List.mem_cons.mp hs with h1 | h2
      · subst h1
        simpa using fun h => hacc (List.mem_reverse.mp h)
      · exact ih [] (by simp) s h2
    · rw [splitSegsAux, if_neg hc] at hs
      refine ih (c :: acc) ?_ s hs
      intro h
      rcases List.mem_cons.mp h with h | h
      · exact hc h.symm
      · exact hacc h

theorem splitPath_no_slash (rel : String) : ∀ s ∈ splitPath rel, '/' ∉ s.data :=
  splitSegsAux_no_slash rel.data [] (by simp)

theorem resolveSegs_no_slash {rel : String} {segs : List String}
    (h : resolveSegs rel = some segs) : ∀ s ∈ segs, '/' ∉ s.data := by
  unfold resolveSegs at h
  split at h
  · exact absurd h (by simp)
  · split at h
    · exact absurd h (by simp)
    · split at h
      · exact absurd h (by simp)
      · split at h
        · exact absurd h (by simp)
        · intro s hs
          obtain rfl : (splitPath rel).filter (fun s => !(s == "") && !(s == ".")) = segs :=
            Option.some.inj h
          exact splitPath_no_slash rel s (List.mem_filter.mp hs).1

theorem resolveSegs_of_dotdot {rel : String} (h : ".." ∈ splitPath rel) :
    resolveSegs rel = none := by
  unfold resolveSegs
  repeat' split
  all_goals rfl

theorem resolveSegs_ne_empty {rel : String} {segs : List String}
    (h : resolveSegs rel = some segs) : rel ≠ "" := by
  intro hrel
  subst hrel
  rw [show resolveSegs "" = none by decide] at h
  exact Option.noConfusion h

theorem safeResolvePath_eq_some {fs : WorkspaceFS} {rel : String} {segs : List String}
    (h : safeResolvePath fs rel = some segs) :
    resolveSegs rel = some segs ∧ segs ≠ [] ∧ fsMem fs segs := by
  unfold safeResolvePath at h
  split at h
  · exact absurd h (by simp)
  · next l hl =>
    split at h
    · exact absurd h (by simp)
    · split at h
      · obtain rfl := Option.some.inj h
        exact ⟨hl, by assumption, by assumption⟩
      · exact absurd h (by simp)

theorem safeResolveNewPath_eq_some {rel : String} {segs : List String}
    (h : safeResolveNewPath rel = some segs) :
    resolveSegs rel = some segs ∧ segs ≠ [] := by
  unfold safeResolveNewPath at h
  split at h
  · exact absurd h (by simp)
  · next l hl =>
    split at h
    · exact absurd h (by simp)
    · obtain rfl := Option.some.inj h
      exact ⟨hl, by assumption⟩

theorem safeResolvePath_none_of_resolveSegs {fs : WorkspaceFS} {rel : String}
    (h : resolveSegs rel = none) : safeResolvePath fs rel = none := by
  unfold safeResolvePath
  rw [h]

theorem safeResolveNewPath_none_of_resolveSegs {rel : String}
    (h : resolveSegs rel = none) : safeResolveNewPath rel = none := by
  unfold safeResolveNewPath
  rw [h]

theorem safeResolvePath_no_slash {fs : WorkspaceFS} {rel : String} {segs : List String}
    (h : safeResolvePath fs rel = some segs) : ∀ s ∈ segs, '/' ∉ s.data :=
  resolveSegs_no_slash (safeResolvePath_eq_some h).1

theorem safeResolvePath_ne_empty {fs : WorkspaceFS} {rel : String} {segs : List String}
    (h : safeResolvePath fs rel = some segs) : rel ≠ "" :=
  resolveSegs_ne_empty (safeResolvePath_eq_some h).1

theorem safeResolveNewPath_ne_empty {rel : String} {segs : List String}
    (h : safeResolveNewPath rel = some segs) : rel ≠ "" :=
  resolveSegs_ne_empty (safeResolveNewPath_eq_some h).1

/-- A failure message "contains the workspace root's absolute path" when
the root string occurs contiguously inside it. -/
def containsRoot (msg : String) : Prop :=
  DENCH_ROOT.data <:+: msg.data

instance (msg : String) : Decidable (containsRoot msg) := by
  unfold containsRoot; exact List.decidableInfix DENCH_ROOT.data msg.data

theorem jsIncludes_slash_false {s : String} (h : jsIncludes s "/" = false) :
    '/' ∉ s.data := by
  intro hmem
  obtain ⟨u, v, huv⟩ := List.append_of_mem hmem
  have : jsIncludes s "/" = true := by
    unfold jsIncludes
    rw [decide_eq_true_iff]
    exact ⟨u, v, by rw [huv]; simp⟩
  rw [h] at this
  exact Bool.noConfusion this

theorem getLastD_no_slash :
    ∀ (l : List String) (d : String), (∀ s ∈ l, '/' ∉ s.data) → '/' ∉ d.data →
      '/' ∉ (l.getLastD d).data := by
  intro l
  induction l with
  | nil => intro d _ hd; exact hd
  | cons a t ih =>
    intro d hl _
    rw [List.getLastD_cons]
    exact ih a (fun s hs => hl s (List.mem_cons_of_mem a hs))
      (hl a (List.mem_cons_self a t))

theorem no_slash_of_append_left {a b : String} (h : '/' ∉ (a ++ b).data) :
    '/' ∉ a.data := by
  rw [sdata_append] at h
  exact fun ha => h (List.mem_append.mpr (Or.inl ha))

theorem no_slash_of_append_right {a b : String} (h : '/' ∉ (a ++ b).data) :
    '/' ∉ b.data := by
  rw [sdata_append] at h
  exact fun hb => h (List.mem_append.mpr (Or.inr hb))

/-- The self-containment guard of the move route is `true` on the source
itself. -/
theorem moveGuard_self (s : List String) :
    (jsStartsWith (renderAbs s) (renderAbs s ++ "/") || renderAbs s == renderAbs s) = true := by
  simp

/-- The self-containment guard of the move route is `true` on every
proper descendant of the source. -/
theorem moveGuard_descendant (s r : List String) (hr : r ≠ []) :
    (jsStartsWith (renderAbs (s ++ r)) (renderAbs s ++ "/") ||
      renderAbs (s ++ r) == renderAbs s) = true := by
  have h1 : renderAbs (s ++ r) = renderAbs s ++ "/" ++ joinSegs r :=
    renderAbs_append s r hr
  apply Bool.or_eq_true_iff.mpr
  left
  unfold jsStartsWith
  rw [List.isPrefixOf_iff_prefix, h1, sdata_append]
  exact ⟨(joinSegs r).data, rfl⟩

/-- The self-containment guard of the move route is `false` on a sibling
whose final segment merely extends the source's final segment: the
trailing-separator comparison is boundary-aware. -/
theorem moveGuard_sibling (p : List String) (n e : String) (he : e ≠ "")
    (hs : '/' ∉ e.data) :
    (jsStartsWith (renderAbs (p ++ [n ++ e])) (renderAbs (p ++ [n]) ++ "/") ||
      renderAbs (p ++ [n ++ e]) == renderAbs (p ++ [n])) = false := by
  have hsrc : renderAbs (p ++ [n]) = renderAbs p ++ "/" ++ n := by
    rw [renderAbs_append p [n] (by simp)]; rfl
  have hdest : renderAbs (p ++ [n ++ e]) = renderAbs p ++ "/" ++ (n ++ e) := by
    rw [renderAbs_append p [n ++ e] (by simp)]; rfl
  apply Bool.or_eq_false_iff.mpr
  constructor
  · apply Bool.eq_false_iff.mpr
    intro hpre
    unfold jsStartsWith at hpre
    rw [List.isPrefixOf_iff_prefix, hsrc, hdest] at hpre
    simp only [sdata_append, List.append_assoc] at hpre
    have h2 := (List.prefix_append_right_inj (renderAbs p).data).mp hpre
    have h3 := (List.prefix_append_right_inj (String.data "/")).mp h2
    have h4 := (List.prefix_append_right_inj n.data).mp h3
    obtain ⟨t, ht⟩ := h4
    apply hs
    rw [← ht]
    simp [String.data]
  · apply beq_eq_false_iff_ne.mpr
    intro heq
    rw [hsrc, hdest] at heq
    have hd : (renderAbs p ++ "/" ++ (n ++ e)).data = (renderAbs p ++ "/" ++ n).data := by
      rw [heq]
    simp only [sdata_append, List.append_assoc] at hd
    have h2 := List.append_cancel_left hd
    have h3 := List.append_cancel_left h2
    have h4 : e.data = [] := List.append_right_eq_self.mp h3
    exact he (string_eq_of_data (by rw [h4]))

theorem mem_dirs_mkdirp (fs : WorkspaceFS) (segs : List String) :
    ∀ i < segs.length, segs.take (i + 1) ∈ (fsMkdirp fs segs).dirs := by
  intro i hi
  unfold fsMkdirp nonemptyPrefixes
  apply List.mem_append.mpr
  right
  exact List.mem_map.mpr ⟨i, List.mem_range.mpr hi, rfl⟩

theorem fsMem_mkdirp_self (fs : WorkspaceFS) (segs : List String) (h : segs ≠ []) :
    fsMem (fsMkdirp fs segs) segs := by
  left
  have hlen : 0 < segs.length := List.length_pos.mpr h
  have := mem_dirs_mkdirp fs segs (segs.length - 1) (by omega)
  rwa [show segs.length - 1 + 1 = segs.length by omega, List.take_length] at this

/-! ### Helper lemmas: route handler branches -/

theorem isSystemFile_ne_empty {rel : String} (h : isSystemFile rel = true) :
    rel ≠ "" := by
  rintro rfl
  rw [show isSystemFile "" = false by decide] at h
  exact Bool.noConfusion h

theorem nameOk_ne_empty {nn : String}
    (h : (jsIncludes nn "/" || jsIncludes nn "\\" || jsTrim nn == "") = false) :
    nn ≠ "" := by
  rintro rfl
  rw [show (jsIncludes "" "/" || jsIncludes "" "\\" || jsTrim "" == "") = true by decide] at h
  exact Bool.noConfusion h

theorem deleteOp_system {fs : WorkspaceFS} {rel : String} {io : Option String}
    (h : isSystemFile rel = true) :
    deleteOp fs rel io = (Resp.err 403 "Cannot delete system file", fs) := by
  unfold deleteOp
  rw [if_neg (isSystemFile_ne_empty h), if_pos h]

theorem renameOp_system {fs : WorkspaceFS} {rel nn : String} {io : Option String}
    (h : isSystemFile rel = true) (hnn : nn ≠ "") :
    renameOp fs rel nn io = (Resp.err 403 "Cannot rename system file", fs) := by
  unfold renameOp
  rw [if_neg (by rintro (h1 | h2); exact isSystemFile_ne_empty h h1; exact hnn h2),
    if_pos h]

theorem moveOp_system {fs : WorkspaceFS} {rel dd : String} {io : Option String}
    (h : isSystemFile rel = true) (hdd : dd ≠ "") :
    moveOp fs rel dd io = (Resp.err 403 "Cannot move system file", fs) := by
  unfold moveOp
  rw [if_neg (by rintro (h1 | h2); exact isSystemFile_ne_empty h h1; exact hdd h2),
    if_pos h]

theorem deleteOp_reject {fs : WorkspaceFS} {rel : String} {io : Option String}
    (hres : safeResolvePath fs rel = none) (hsys : isSystemFile rel = false)
    (hne : rel ≠ "") :
    deleteOp fs rel io = (Resp.err 404 "File not found or path traversal rejected", fs) := by
  unfold deleteOp
  rw [if_neg hne, if_neg (by simp [hsys]), hres]

theorem writeOp_reject {fs : WorkspaceFS} {rel c : String} {io : Option String}
    (hres : safeResolveNewPath rel = none) (hne : rel ≠ "") :
    writeOp fs rel c io = (Resp.err 400 "Invalid path or path traversal rejected", fs) := by
  unfold writeOp
  rw [if_neg hne, hres]

theorem mkdirOp_reject {fs : WorkspaceFS} {rel : String} {io : Option String}
    (hres : safeResolveNewPath rel = none) (hne : rel ≠ "") :
    mkdirOp fs rel io = (Resp.err 400 "Invalid path or path traversal rejected", fs) := by
  unfold mkdirOp
  rw [if_neg hne, hres]

theorem copyOp_reject {fs : WorkspaceFS} {rel : String} {dp : Option String}
    {io : Option String} (hres : safeResolvePath fs rel = none) (hne : rel ≠ "") :
    copyOp fs rel dp io = (Resp.err 404 "Source not found or path traversal rejected", fs) := by
  unfold copyOp
  rw [if_neg hne, hres]

theorem renameOp_reject {fs : WorkspaceFS} {rel nn : String} {io : Option String}
    (hres : safeResolvePath fs rel = none) (hsys : isSystemFile rel = false)
    (hne : rel ≠ "")
    (hname : (jsIncludes nn "/" || jsIncludes nn "\\" || jsTrim nn == "") = false) :
    renameOp fs rel nn io = (Resp.err 404 "Source not found or path traversal rejected", fs) := by
  unfold renameOp
  rw [if_neg (by rintro (h1 | h2); exact hne h1; exact nameOk_ne_empty hname h2),
    if_neg (by simp [hsys]), if_neg (by simp [hname]), hres]

theorem moveOp_src_reject {fs : WorkspaceFS} {sp dd : String} {io : Option String}
    (hres : safeResolvePath fs sp = none) (hsys : isSystemFile sp = false)
    (hne : sp ≠ "") (hdd : dd ≠ "") :
    moveOp fs sp dd io = (Resp.err 404 "Source not found or path traversal rejected", fs) := by
  unfold moveOp
  rw [if_neg (by rintro (h1 | h2); exact hne h1; exact hdd h2),
    if_neg (by simp [hsys]), hres]

theorem writeOp_ok {fs : WorkspaceFS} {rel c : String} {segs : List String}
    (h : safeResolveNewPath rel = some segs) :
    writeOp fs rel c none = (Resp.ok rel, fsWrite (fsMkdirp fs segs.dropLast) segs c) := by
  unfold writeOp
  rw [if_neg (safeResolveNewPath_ne_empty h), h]

theorem fileContent_write (fs : WorkspaceFS) (p : List String) (c : String) :
    fileContent (fsWrite fs p c) p = some c := by
  unfold fileContent fsWrite
  rw [List.find?_cons_of_pos _ (by simp)]
  rfl

theorem mkdirOp_ok {fs : WorkspaceFS} {rel : String} {segs : List String}
    (h : safeResolveNewPath rel = some segs) (hmem : ¬ fsMem fs segs) :
    mkdirOp fs rel none = (Resp.ok rel, fsMkdirp fs segs) := by
  unfold mkdirOp
  rw [if_neg (safeResolveNewPath_ne_empty h), h]
  simp only [if_neg hmem]

theorem mkdirOp_conflict {fs : WorkspaceFS} {rel : String} {segs : List String}
    {io : Option String} (h : safeResolveNewPath rel = some segs) (hmem : fsMem fs segs) :
    mkdirOp fs rel io = (Resp.err 409 "Directory already exists", fs) := by
  unfold mkdirOp
  rw [if_neg (safeResolveNewPath_ne_empty h), h]
  simp only [if_pos hmem]

theorem renameOp_conflict {fs : WorkspaceFS} {rel nn : String} {io : Option String}
    {src q : List String}
    (hsys : isSystemFile rel = false)
    (hname : (jsIncludes nn "/" || jsIncludes nn "\\" || jsTrim nn == "") = false)
    (hr : safeResolvePath fs rel = some src)
    (hval : safeResolveNewPath (mkNewRelPath rel nn) = some q)
    (hex : fsMem fs (src.dropLast ++ [nn])) :
    renameOp fs rel nn io =
      (Resp.err 409 ("A file named \x27" ++ nn ++ "\x27 already exists"), fs) := by
  unfold renameOp
  rw [if_neg (by
      rintro (h1 | h2)
      · exact safeResolvePath_ne_empty hr h1
      · exact nameOk_ne_empty hname h2),
    if_neg (by simp [hsys]), if_neg (by simp [hname]), hr]
  simp only [hval, if_pos hex]

theorem moveOp_self {fs : WorkspaceFS} {foo : String} {io : Option String}
    {src : List String}
    (hsys : isSystemFile foo = false) (hr : safeResolvePath fs foo = some src)
    (hdir : fsIsDir fs src) :
    moveOp fs foo foo io = (Resp.err 400 "Cannot move a folder into itself", fs) := by
  unfold moveOp
  rw [if_neg (by rintro (h1 | h1) <;> exact safeResolvePath_ne_empty hr h1),
    if_neg (by simp [hsys]), hr]
  simp [hdir, moveGuard_self src]

theorem moveOp_descendant {fs : WorkspaceFS} {foo d : String} {io : Option String}
    {src r : List String}
    (hsys : isSystemFile foo = false)
    (hr : safeResolvePath fs foo = some src)
    (hd : safeResolvePath fs d = some (src ++ r)) (hrr : r ≠ [])
    (hdir : fsIsDir fs (src ++ r)) :
    moveOp fs foo d io = (Resp.err 400 "Cannot move a folder into itself", fs) := by
  unfold moveOp
  rw [if_neg (by
      rintro (h1 | h2)
      · exact safeResolvePath_ne_empty hr h1
      · exact safeResolvePath_ne_empty hd h2),
    if_neg (by simp [hsys]), hr, hd]
  simp [hdir, moveGuard_descendant src r hrr]

theorem moveOp_sibling_not_guarded {fs : WorkspaceFS} {foo sib : String}
    {io : Option String} {p : List String} {n e : String}
    (hsys : isSystemFile foo = false)
    (hr : safeResolvePath fs foo = some (p ++ [n]))
    (hd : safeResolvePath fs sib = some (p ++ [n ++ e]))
    (he : e ≠ "") :
    (moveOp fs foo sib io).1 ≠ Resp.err 400 "Cannot move a folder into itself" := by
  have hsl : '/' ∉ e.data := by
    have hall := safeResolvePath_no_slash hd
    have hlast : (n ++ e) ∈ p ++ [n ++ e] := by simp
    have hns := hall _ hlast
    rw [sdata_append] at hns
    exact fun hc => hns (List.mem_append.mpr (Or.inr hc))
  have hguard := moveGuard_sibling p n e he hsl
  unfold moveOp
  rw [if_neg (by
      rintro (h1 | h2)
      · exact safeResolvePath_ne_empty hr h1
      · exact safeResolvePath_ne_empty hd h2),
    if_neg (by simp [hsys]), hr, hd]
  simp only [hguard, Bool.false_eq_true, if_false]
  split
  · intro hcontra
    exact absurd (Resp.err.inj hcontra).2 (by decide)
  · split
    · intro hcontra
      exact absurd (Resp.err.inj hcontra).1 (by decide)
    · split
      · intro hcontra
        exact absurd (Resp.err.inj hcontra).1 (by decide)
      · simp

/-! ### Helper lemmas: failure branches never mutate -/

theorem deleteOp_snd {fs : WorkspaceFS} {rel : String} {io : Option String}
    (h : safeResolvePath fs rel = none) : (deleteOp fs rel io).2 = fs := by
  unfold deleteOp
  split
  · rfl
  · split
    · rfl
    · rw [h]

theorem renameOp_snd {fs : WorkspaceFS} {rel nn : String} {io : Option String}
    (h : safeResolvePath fs rel = none) : (renameOp fs rel nn io).2 = fs := by
  unfold renameOp
  split
  · rfl
  · split
    · rfl
    · split
      · rfl
      · rw [h]

theorem moveOp_snd_src {fs : WorkspaceFS} {sp dd : String} {io : Option String}
    (h : safeResolvePath fs sp = none) : (moveOp fs sp dd io).2 = fs := by
  unfold moveOp
  split
  · rfl
  · split
    · rfl
    · rw [h]

theorem moveOp_snd_dest {fs : WorkspaceFS} {sp dd : String} {io : Option String}
    (h : safeResolvePath fs dd = none) : (moveOp fs sp dd io).2 = fs := by
  unfold moveOp
  split
  · rfl
  · split
    · rfl
    · split
      · rfl
      · rw [h]

theorem copyOp_snd_src {fs : WorkspaceFS} {rel : String} {dp io : Option String}
    (h : safeResolvePath fs rel = none) : (copyOp fs rel dp io).2 = fs := by
  unfold copyOp
  split
  · rfl
  · rw [h]

theorem copyOp_snd_dest {fs : WorkspaceFS} {sp rel : String} {io : Option String}
    (h : safeResolveNewPath rel = none) (hrel : rel ≠ "") :
    (copyOp fs sp (some rel) io).2 = fs := by
  unfold copyOp
  split
  · rfl
  · split
    · rfl
    · have hd : copyDestRel sp (some rel) = rel := by
        simp only [copyDestRel]
        rw [if_neg hrel]
      rw [hd, h]

theorem mkdirOp_snd {fs : WorkspaceFS} {rel : String} {io : Option String}
    (h : safeResolveNewPath rel = none) : (mkdirOp fs rel io).2 = fs := by
  unfold mkdirOp
  split
  · rfl
  · rw [h]

theorem writeOp_snd {fs : WorkspaceFS} {rel c : String} {io : Option String}
    (h : safeResolveNewPath rel = none) : (writeOp fs rel c io).2 = fs := by
  unfold writeOp
  split
  · rfl
  · rw [h]

/-! ### Helper lemmas: extensions, messages, debounce, backoff -/

theorem lastDotIdx_lt {cs : List Char} {i : Nat} (h : lastDotIdx cs = some i) :
    i < cs.length := by
  induction cs generalizing i with
  | nil => exact absurd h (by simp [lastDotIdx])
  | cons c rest ih =>
    unfold lastDotIdx at h
    split at h
    · next j hj =>
      obtain rfl := Option.some.inj h
      simp only [List.length_cons]
      exact Nat.succ_lt_succ (ih hj)
    · split at h
      · obtain rfl := Option.some.inj h
        simp
      · exact Option.noConfusion h

theorem extname_ne_cases {name : String} (h : extname name ≠ "") :
    ∃ i, lastDotIdx name.data = some (i + 1) ∧
      extname name = String.mk (name.data.drop (i + 1)) := by
  unfold extname at h ⊢
  cases hld : lastDotIdx name.data with
  | none => rw [hld] at h; exact absurd rfl h
  | some k =>
    cases k with
    | zero => rw [hld] at h; exact absurd rfl h
    | succ i => exact ⟨i, rfl, rfl⟩

theorem stemOf_append_extname {name : String} (h : extname name ≠ "") :
    stemOf name ++ extname name = name := by
  obtain ⟨i, hld, hext⟩ := extname_ne_cases h
  unfold stemOf
  rw [if_neg h, hext]
  apply string_eq_of_data
  rw [sdata_append]
  have hle : i + 1 ≤ name.data.length := Nat.le_of_lt (lastDotIdx_lt hld)
  show name.data.take (name.data.length - (name.data.drop (i + 1)).length) ++
    name.data.drop (i + 1) = name.data
  rw [List.length_drop,
    show name.data.length - (name.data.length - (i + 1)) = i + 1 by omega]
  exact List.take_append_drop (i + 1) name.data

theorem autoCopyName_of_ext {name : String} (h : extname name ≠ "") :
    autoCopyName name = stemOf name ++ " copy" ++ extname name := by
  unfold autoCopyName
  rw [if_neg h]

theorem autoCopyName_of_no_ext {name : String} (h : extname name = "") :
    autoCopyName name = name ++ " copy" := by
  unfold autoCopyName stemOf
  rw [if_pos h, if_pos h]

theorem not_containsRoot_mid {pre mid post : String}
    (hpre : '/' ∉ pre.data) (hmid : '/' ∉ mid.data) (hpost : '/' ∉ post.data) :
    ¬ containsRoot (pre ++ mid ++ post) := by
  intro hinf
  have hs : '/' ∈ (pre ++ mid ++ post).data :=
    hinf.subset (by decide : '/' ∈ DENCH_ROOT.data)
  rw [sdata_append, sdata_append] at hs
  rcases List.mem_append.mp hs with hs | hs
  · rcases List.mem_append.mp hs with hs | hs
    · exact hpre hs
    · exact hmid hs
  · exact hpost hs

theorem no_slash_of_nameOk {nn : String}
    (h : ¬ ((jsIncludes nn "/" || jsIncludes nn "\\" || jsTrim nn == "") = true)) :
    '/' ∉ nn.data := by
  have hf : (jsIncludes nn "/" || jsIncludes nn "\\" || jsTrim nn == "") = false :=
    Bool.eq_false_iff.mpr h
  rcases Bool.or_eq_false_iff.mp hf with ⟨hab, _⟩
  rcases Bool.or_eq_false_iff.mp hab with ⟨ha, _⟩
  exact jsIncludes_slash_false ha

theorem observedDelays_reset (l : List ConnEvent) :
    ∀ d, observedDelays d (l ++ [ConnEvent.connectedAck, ConnEvent.failure]) =
      observedDelays d l ++ [RETRY_INIT] := by
  induction l with
  | nil => intro d; rfl
  | cons a t ih =>
    intro d
    cases a <;> simp [observedDelays, ih]

theorem observedDelays_le (l : List ConnEvent) :
    ∀ d, d ≤ RETRY_CAP → ∀ x ∈ observedDelays d l, x ≤ RETRY_CAP := by
  induction l with
  | nil => intro d _ x hx; simp [observedDelays] at hx
  | cons a t ih =>
    intro d hd x hx
    cases a
    · simp only [observedDelays, List.mem_cons] at hx
      rcases hx with rfl | hx
      · exact hd
      · exact ih _ (min_le_right _ _) x hx
    · simp only [observedDelays] at hx
      exact ih RETRY_INIT (by decide) x hx

theorem debounce_coalesce (e₀ : Nat × RawEvent) (rest : List (Nat × RawEvent))
    (h : gapsLtB (e₀ :: rest) = true) :
    debounceEmits (e₀ :: rest) =
      [(((e₀ :: rest).getLast (List.cons_ne_nil e₀ rest)).1 + DEBOUNCE_MS,
        ((e₀ :: rest).getLast (List.cons_ne_nil e₀ rest)).2)] := by
  induction rest generalizing e₀ with
  | nil =>
    obtain ⟨t, e⟩ := e₀
    simp [debounceEmits]
  | cons e₁ rest ih =>
    obtain ⟨t₀, p₀⟩ := e₀
    obtain ⟨t₁, p₁⟩ := e₁
    rw [gapsLtB] at h
    obtain ⟨hgap, hrest⟩ := Bool.and_eq_true_iff.mp h
    have hlt : t₁ < t₀ + DEBOUNCE_MS := of_decide_eq_true hgap
    rw [debounceEmits, if_pos hlt, ih _ hrest]
    simp [List.getLast_cons]

theorem deleteOp_err_no_root {fs : WorkspaceFS} {rel : String} {io : Option String}
    {st : Nat} {m : String}
    (h : (deleteOp fs rel io).1 = Resp.err st m) (h500 : st ≠ 500) :
    ¬ containsRoot m := by
  unfold deleteOp at h
  repeat' split at h
  all_goals first
  | exact Resp.noConfusion h
  | (cases h; exact absurd rfl h500)
  | (cases h; decide)

theorem writeOp_err_no_root {fs : WorkspaceFS} {rel c : String} {io : Option String}
    {st : Nat} {m : String}
    (h : (writeOp fs rel c io).1 = Resp.err st m) (h500 : st ≠ 500) :
    ¬ containsRoot m := by
  unfold writeOp at h
  repeat' split at h
  all_goals first
  | exact Resp.noConfusion h
  | (cases h; exact absurd rfl h500)
  | (cases h; decide)

theorem mkdirOp_err_no_root {fs : WorkspaceFS} {rel : String} {io : Option String}
    {st : Nat} {m : String}
    (h : (mkdirOp fs rel io).1 = Resp.err st m) (h500 : st ≠ 500) :
    ¬ containsRoot m := by
  unfold mkdirOp at h
  repeat' split at h
  all_goals first
  | exact Resp.noConfusion h
  | (cases h; exact absurd rfl h500)
  | (cases h; decide)

theorem copyOp_err_no_root {fs : WorkspaceFS} {rel : String} {dp io : Option String}
    {st : Nat} {m : String}
    (h : (copyOp fs rel dp io).1 = Resp.err st m) (h500 : st ≠ 500) :
    ¬ containsRoot m := by
  unfold copyOp at h
  repeat' split at h
  all_goals first
  | exact Resp.noConfusion h
  | (cases h; exact absurd rfl h500)
  | (cases h; decide)

theorem renameOp_err_no_root {fs : WorkspaceFS} {rel nn : String} {io : Option String}
    {st : Nat} {m : String}
    (h : (renameOp fs rel nn io).1 = Resp.err st m) (h500 : st ≠ 500) :
    ¬ containsRoot m := by
  unfold renameOp at h
  repeat' split at h
  all_goals first
  | exact Resp.noConfusion h
  | (cases h; exact absurd rfl h500)
  | (cases h; decide)
  | (cases h
     exact not_containsRoot_mid (by decide) (no_slash_of_nameOk (by assumption))
       (by decide))

theorem moveOp_err_no_root {fs : WorkspaceFS} {sp dd : String} {io : Option String}
    {st : Nat} {m : String}
    (h : (moveOp fs sp dd io).1 = Resp.err st m) (h500 : st ≠ 500) :
    ¬ containsRoot m := by
  unfold moveOp at h
  repeat' split at h
  all_goals first
  | exact Resp.noConfusion h
  | (cases h; exact absurd rfl h500)
  | (cases h; decide)
  | (cases h
     exact not_containsRoot_mid (by decide)
       (getLastD_no_slash _ "" (safeResolvePath_no_slash (by assumption)) (by decide))
       (by decide))

/-! ### Claim theorems -/

/-- C1 (amended): for every relative path containing a `..` segment,
path resolution returns a rejection in both modes (`mustExist` and
`mayNotExist`); every mutating operation given such a path — in any path
position — performs no filesystem mutation; and the returned failure is
the path-rejection failure whenever the operation's earlier guards do not
fire (the system-file guard runs before resolution in Delete/Rename/Move,
and Rename's name validation runs before resolution), unconditionally so
for Copy, Mkdir and the file write. -/
theorem c1_traversal_rejected (rel : String) (h : ".." ∈ splitPath rel) :
    (∀ fs : WorkspaceFS, safeResolvePath fs rel = none) ∧
    safeResolveNewPath rel = none ∧
    (∀ (fs : WorkspaceFS) (io : Option String), (deleteOp fs rel io).2 = fs) ∧
    (∀ (fs : WorkspaceFS) (nn : String) (io : Option String),
      (renameOp fs rel nn io).2 = fs) ∧
    (∀ (fs : WorkspaceFS) (dd : String) (io : Option String),
      (moveOp fs rel dd io).2 = fs) ∧
    (∀ (fs : WorkspaceFS) (sp : String) (io : Option String),
      (moveOp fs sp rel io).2 = fs) ∧
    (∀ (fs : WorkspaceFS) (sp : String) (io : Option String),
      (copyOp fs sp (some rel) io).2 = fs) ∧
    (∀ (fs : WorkspaceFS) (io : Option String), isSystemFile rel = false →
      deleteOp fs rel io =
        (Resp.err 404 "File not found or path traversal rejected", fs)) ∧
    (∀ (fs : WorkspaceFS) (nn : String) (io : Option String),
      isSystemFile rel = false →
      (jsIncludes nn "/" || jsIncludes nn "\\" || jsTrim nn == "") = false →
      renameOp fs rel nn io =
        (Resp.err 404 "Source not found or path traversal rejected", fs)) ∧
    (∀ (fs : WorkspaceFS) (dd : String) (io : Option String),
      isSystemFile rel = false → dd ≠ "" →
      moveOp fs rel dd io =
        (Resp.err 404 "Source not found or path traversal rejected", fs)) ∧
    (∀ (fs : WorkspaceFS) (dp io : Option String),
      copyOp fs rel dp io =
        (Resp.err 404 "Source not found or path traversal rejected", fs)) ∧
    (∀ (fs : WorkspaceFS) (io : Option String),
      mkdirOp fs rel io =
        (Resp.err 400 "Invalid path or path traversal rejected", fs)) ∧
    (∀ (fs : WorkspaceFS) (c : String) (io : Option String),
      writeOp fs rel c io =
        (Resp.err 400 "Invalid path or path traversal rejected", fs)) := by
  have hres : resolveSegs rel = none := resolveSegs_of_dotdot h
  have hne : rel ≠ "" := by
    rintro rfl
    revert h
    decide
  have ha : ∀ fs : WorkspaceFS, safeResolvePath fs rel = none :=
    fun fs => safeResolvePath_none_of_resolveSegs hres
  have hb : safeResolveNewPath rel = none :=
    safeResolveNewPath_none_of_resolveSegs hres
  refine ⟨ha, hb, ?_, ?_, ?_, ?_, ?_, ?_, ?_, ?_, ?_, ?_, ?_⟩
  · exact fun fs io => deleteOp_snd (ha fs)
  · exact fun fs nn io => renameOp_snd (ha fs)
  · exact fun fs dd io => moveOp_snd_src (ha fs)
  · exact fun fs sp io => moveOp_snd_dest (ha fs)
  · exact fun fs sp io => copyOp_snd_dest hb hne
  · exact fun fs io hsys => deleteOp_reject (ha fs) hsys hne
  · exact fun fs nn io hsys hname => renameOp_reject (ha fs) hsys hne hname
  · exact fun fs dd io hsys hdd => moveOp_src_reject (ha fs) hsys hne hdd
  · exact fun fs dp io => copyOp_reject (ha fs) hne
  · exact fun fs io => mkdirOp_reject hb hne
  · exact fun fs c io => writeOp_reject hb hne

/-- C1 witness: the spec's two example paths are rejected by both
resolution modes, and Delete on a traversal path with a non-system base
name fails with the path-rejection response leaving the state intact. -/
theorem c1_traversal_rejected_witness :
    safeResolvePath ⟨[["a"]], []⟩ "../../etc/passwd" = none ∧
    safeResolveNewPath "a/../../b" = none ∧
    deleteOp ⟨[["a"]], []⟩ "../../etc/passwd" none =
      (Resp.err 404 "File not found or path traversal rejected", ⟨[["a"]], []⟩) := by
  have h1 := c1_traversal_rejected "../../etc/passwd" (by decide)
  have h2 := c1_traversal_rejected "a/../../b" (by decide)
  exact ⟨h1.1 _, h2.2.1, h1.2.2.2.2.2.2.2.1 _ none (by decide)⟩

/-- C1 counterexample: a traversal path whose base name matches the
system-file patterns is answered with the SystemFileProtected failure
(status 403), not a path-rejection failure, because Delete consults the
classifier before resolving the path. -/
theorem c1_counterexample :
    (deleteOp ⟨[], []⟩ "../workspace.duckdb" none).1 =
      Resp.err 403 "Cannot delete system file" ∧
    (deleteOp ⟨[], []⟩ "../workspace.duckdb" none).1 ≠
      Resp.err 404 "File not found or path traversal rejected" :=
  ⟨by decide, by decide⟩

/-- C2: for every path whose base name matches the system-file patterns,
Delete, Rename and Move fail with the SystemFileProtected response
(status 403 and the corresponding message) and leave the filesystem
unchanged, for every filesystem state — in particular when the path
resolves inside the root and exists. -/
theorem c2_system_file_immutable (rel : String) (h : isSystemFile rel = true) :
    ∀ (fs : WorkspaceFS) (io : Option String),
      deleteOp fs rel io = (Resp.err 403 "Cannot delete system file", fs) ∧
      (∀ nn : String, nn ≠ "" →
        renameOp fs rel nn io = (Resp.err 403 "Cannot rename system file", fs)) ∧
      (∀ dd : String, dd ≠ "" →
        moveOp fs rel dd io = (Resp.err 403 "Cannot move system file", fs)) :=
  fun _ _ => ⟨deleteOp_system h, fun _ hnn => renameOp_system h hnn,
    fun _ hdd => moveOp_system h hdd⟩

/-- C2 witness: `workspace.duckdb` (existing, valid) is protected from
Delete and Rename, and `workspace.duckdb.wal` from Move. -/
theorem c2_system_file_immutable_witness :
    deleteOp ⟨[], [(["workspace.duckdb"], "db")]⟩ "workspace.duckdb" none =
      (Resp.err 403 "Cannot delete system file", ⟨[], [(["workspace.duckdb"], "db")]⟩) ∧
    renameOp ⟨[], [(["workspace.duckdb"], "db")]⟩ "workspace.duckdb" "x.txt" none =
      (Resp.err 403 "Cannot rename system file", ⟨[], [(["workspace.duckdb"], "db")]⟩) ∧
    moveOp ⟨[["d"]], [(["workspace.duckdb.wal"], "w")]⟩ "workspace.duckdb.wal" "d" none =
      (Resp.err 403 "Cannot move system file", ⟨[["d"]], [(["workspace.duckdb.wal"], "w")]⟩) :=
  ⟨(c2_system_file_immutable "workspace.duckdb" (by decide) _ none).1,
   (c2_system_file_immutable "workspace.duckdb" (by decide) _ none).2.1 "x.txt" (by decide),
   (c2_system_file_immutable "workspace.duckdb.wal" (by decide) _ none).2.2 "d" (by decide)⟩

/-- C3 (amended): for every existing non-system directory `foo`,
`Move(foo, foo)` and `Move(foo, d)` for any resolved descendant `d` of
`foo` fail with the SelfContainment response and leave the state
unchanged; and for a sibling whose final segment merely extends `foo`'s
final segment, the result is never the SelfContainment failure — the
containment check is path-separator-boundary aware. -/
theorem c3_move_self_containment :
    (∀ (fs : WorkspaceFS) (foo : String) (io : Option String) (src : List String),
      isSystemFile foo = false → safeResolvePath fs foo = some src →
      fsIsDir fs src →
      moveOp fs foo foo io = (Resp.err 400 "Cannot move a folder into itself", fs)) ∧
    (∀ (fs : WorkspaceFS) (foo d : String) (io : Option String) (src r : List String),
      isSystemFile foo = false → safeResolvePath fs foo = some src →
      safeResolvePath fs d = some (src ++ r) → r ≠ [] → fsIsDir fs (src ++ r) →
      moveOp fs foo d io = (Resp.err 400 "Cannot move a folder into itself", fs)) ∧
    (∀ (fs : WorkspaceFS) (foo sib : String) (io : Option String)
      (p : List String) (n e : String),
      isSystemFile foo = false → safeResolvePath fs foo = some (p ++ [n]) →
      safeResolvePath fs sib = some (p ++ [n ++ e]) → e ≠ "" →
      (moveOp fs foo sib io).1 ≠ Resp.err 400 "Cannot move a folder into itself") :=
  ⟨fun _ _ _ _ h1 h2 h3 => moveOp_self h1 h2 h3,
   fun _ _ _ _ _ _ h1 h2 h3 h4 h5 => moveOp_descendant h1 h2 h3 h4 h5,
   fun _ _ _ _ _ _ _ h1 h2 h3 h4 => moveOp_sibling_not_guarded h1 h2 h3 h4⟩

/-- C3 witness: with directories `foo`, `foo/bar` and `foobar`, moving
`foo` into itself or into `foo/bar` is the SelfContainment failure, while
moving `foo` into `foobar` is not rejected by the containment guard. -/
theorem c3_move_self_containment_witness :
    moveOp ⟨[["foo"], ["foobar"], ["foo", "bar"]], []⟩ "foo" "foo" none =
      (Resp.err 400 "Cannot move a folder into itself",
        ⟨[["foo"], ["foobar"], ["foo", "bar"]], []⟩) ∧
    moveOp ⟨[["foo"], ["foobar"], ["foo", "bar"]], []⟩ "foo" "foo/bar" none =
      (Resp.err 400 "Cannot move a folder into itself",
        ⟨[["foo"], ["foobar"], ["foo", "bar"]], []⟩) ∧
    (moveOp ⟨[["foo"], ["foobar"], ["foo", "bar"]], []⟩ "foo" "foobar" none).1 ≠
      Resp.err 400 "Cannot move a folder into itself" :=
  ⟨c3_move_self_containment.1 _ "foo" none ["foo"] (by decide) (by decide) (by decide),
   c3_move_self_containment.2.1 _ "foo" "foo/bar" none ["foo"] ["bar"]
     (by decide) (by decide) (by decide) (by decide) (by decide),
   c3_move_self_containment.2.2 _ "foo" "foobar" none [] "foo" "bar"
     (by decide) (by decide) (by decide) (by decide)⟩

/-- C3 counterexample: an existing directory whose name matches the
system-file patterns (`cache.tmp`) makes `Move(foo, foo)` fail with
SystemFileProtected, not SelfContainment — the classifier runs first, so
the claim's universal statement over all existing directories fails. -/
theorem c3_counterexample :
    moveOp ⟨[["cache.tmp"]], []⟩ "cache.tmp" "cache.tmp" none =
      (Resp.err 403 "Cannot move system file", ⟨[["cache.tmp"]], []⟩) ∧
    (moveOp ⟨[["cache.tmp"]], []⟩ "cache.tmp" "cache.tmp" none).1 ≠
      Resp.err 400 "Cannot move a folder into itself" :=
  ⟨by decide, by decide⟩

/-- C4 (amended): for every existing non-system file and every valid new
name, Rename fails with the Conflict response (status 409, no overwrite:
the state is returned unchanged) whenever the computed sibling target
exists — including when the new name equals the file's current name, in
which case the target is the source itself, which exists; the existence
check does not special-case the source. -/
theorem c4_rename_conflict (fs : WorkspaceFS) (rel nn : String) (io : Option String)
    (src q : List String)
    (hsys : isSystemFile rel = false)
    (hname : (jsIncludes nn "/" || jsIncludes nn "\\" || jsTrim nn == "") = false)
    (hr : safeResolvePath fs rel = some src)
    (hval : safeResolveNewPath (mkNewRelPath rel nn) = some q)
    (hex : fsMem fs (src.dropLast ++ [nn])) :
    renameOp fs rel nn io =
      (Resp.err 409 ("A file named \x27" ++ nn ++ "\x27 already exists"), fs) :=
  renameOp_conflict hsys hname hr hval hex

/-- C4 witness: renaming `a.txt` to the existing sibling `b.txt` fails
with Conflict and leaves both files untouched. -/
theorem c4_rename_conflict_witness :
    renameOp ⟨[], [(["a.txt"], "A"), (["b.txt"], "B")]⟩ "a.txt" "b.txt" none =
      (Resp.err 409 "A file named \x27b.txt\x27 already exists",
        ⟨[], [(["a.txt"], "A"), (["b.txt"], "B")]⟩) :=
  c4_rename_conflict ⟨[], [(["a.txt"], "A"), (["b.txt"], "B")]⟩ "a.txt" "b.txt" none
    ["a.txt"] ["b.txt"] (by decide) (by decide) (by decide) (by decide) (by decide)

/-- C4 counterexample: renaming `a.txt` to its own current name `a.txt`
fails with Conflict — the target path equals the source, which exists, so
the claim that same-name rename does not conflict is false on the code. -/
theorem c4_counterexample :
    renameOp ⟨[], [(["a.txt"], "A")]⟩ "a.txt" "a.txt" none =
      (Resp.err 409 "A file named \x27a.txt\x27 already exists",
        ⟨[], [(["a.txt"], "A")]⟩) := by
  decide

/-- C5 (amended): for every mutating operation (and the file write), every
failure response generated by the route itself — any error whose status is
not the 500 IOFailure passthrough — never contains the workspace root's
absolute filesystem path: the messages are fixed strings or embed only the
separator-free names supplied by the caller.  (The 500 IOFailure branch
returns the underlying exception message verbatim; see the
counterexample.) -/
theorem c5_messages_no_root :
    (∀ (fs : WorkspaceFS) (rel : String) (io : Option String) (st : Nat) (m : String),
      (deleteOp fs rel io).1 = Resp.err st m → st ≠ 500 → ¬ containsRoot m) ∧
    (∀ (fs : WorkspaceFS) (rel c : String) (io : Option String) (st : Nat) (m : String),
      (writeOp fs rel c io).1 = Resp.err st m → st ≠ 500 → ¬ containsRoot m) ∧
    (∀ (fs : WorkspaceFS) (rel nn : String) (io : Option String) (st : Nat) (m : String),
      (renameOp fs rel nn io).1 = Resp.err st m → st ≠ 500 → ¬ containsRoot m) ∧
    (∀ (fs : WorkspaceFS) (sp dd : String) (io : Option String) (st : Nat) (m : String),
      (moveOp fs sp dd io).1 = Resp.err st m → st ≠ 500 → ¬ containsRoot m) ∧
    (∀ (fs : WorkspaceFS) (rel : String) (dp io : Option String) (st : Nat) (m : String),
      (copyOp fs rel dp io).1 = Resp.err st m → st ≠ 500 → ¬ containsRoot m) ∧
    (∀ (fs : WorkspaceFS) (rel : String) (io : Option String) (st : Nat) (m : String),
      (mkdirOp fs rel io).1 = Resp.err st m → st ≠ 500 → ¬ containsRoot m) :=
  ⟨fun _ _ _ _ _ h h5 => deleteOp_err_no_root h h5,
   fun _ _ _ _ _ _ h h5 => writeOp_err_no_root h h5,
   fun _ _ _ _ _ _ h h5 => renameOp_err_no_root h h5,
   fun _ _ _ _ _ _ h h5 => moveOp_err_no_root h h5,
   fun _ _ _ _ _ _ h h5 => copyOp_err_no_root h h5,
   fun _ _ _ _ _ h h5 => mkdirOp_err_no_root h h5⟩

/-- C5 witness: the SystemFileProtected message of Delete at a concrete
request carries no occurrence of the workspace root. -/
theorem c5_messages_no_root_witness : ¬ containsRoot "Cannot delete system file" :=
  c5_messages_no_root.1 ⟨[], []⟩ "workspace.duckdb" none 403
    "Cannot delete system file" (by decide) (by decide)

/-- C5 counterexample: when the underlying filesystem call throws an
exception whose message mentions the absolute workspace path — as Node's
`fs` errors do — Delete's IOFailure branch returns that message verbatim,
so the failure response does contain the root. -/
theorem c5_counterexample :
    (deleteOp ⟨[], [(["a.txt"], "x")]⟩ "a.txt"
        (some ("EACCES: permission denied, unlink \x27" ++ DENCH_ROOT ++ "/a.txt\x27"))).1 =
      Resp.err 500 ("EACCES: permission denied, unlink \x27" ++ DENCH_ROOT ++ "/a.txt\x27") ∧
    containsRoot ("EACCES: permission denied, unlink \x27" ++ DENCH_ROOT ++ "/a.txt\x27") :=
  ⟨by decide, by decide⟩

/-- C6: a burst of raw change events in which every consecutive pair is
separated by strictly less than the 200 ms debounce window produces
exactly one change notification, emitted 200 ms after the last event of
the burst and carrying the type and path of that last event. -/
theorem c6_debounce_coalesce (e₀ : Nat × RawEvent) (rest : List (Nat × RawEvent))
    (h : gapsLtB (e₀ :: rest) = true) :
    debounceEmits (e₀ :: rest) =
      [(((e₀ :: rest).getLast (List.cons_ne_nil e₀ rest)).1 + DEBOUNCE_MS,
        ((e₀ :: rest).getLast (List.cons_ne_nil e₀ rest)).2)] :=
  debounce_coalesce e₀ rest h

/-- C6 witness: ten raw events 50 ms apart yield exactly one notification
at 450 + 200 ms with the last event's payload. -/
theorem c6_debounce_coalesce_witness :
    debounceEmits [(0, ⟨"add", "f0"⟩), (50, ⟨"change", "f1"⟩), (100, ⟨"change", "f2"⟩),
        (150, ⟨"add", "f3"⟩), (200, ⟨"change", "f4"⟩), (250, ⟨"unlink", "f5"⟩),
        (300, ⟨"add", "f6"⟩), (350, ⟨"change", "f7"⟩), (400, ⟨"addDir", "f8"⟩),
        (450, ⟨"unlink", "f9"⟩)] = [(650, ⟨"unlink", "f9"⟩)] :=
  (c6_debounce_coalesce (0, ⟨"add", "f0"⟩)
    [(50, ⟨"change", "f1"⟩), (100, ⟨"change", "f2"⟩), (150, ⟨"add", "f3"⟩),
      (200, ⟨"change", "f4"⟩), (250, ⟨"unlink", "f5"⟩), (300, ⟨"add", "f6"⟩),
      (350, ⟨"change", "f7"⟩), (400, ⟨"addDir", "f8"⟩), (450, ⟨"unlink", "f9"⟩)]
    (by decide)).trans (by decide)

/-- C7: the claimed backoff sequence fails on the code, and the code is
the slip: `connectSSE` registers both an `error` listener and `onerror`
with identical bodies, so each connection failure runs
`scheduleReconnect` twice.  The first failure after mount observes delays
1000 then 2000 ms instead of 1000 alone; three consecutive failures
observe 1000, 2000, 4000, 8000, 16000, 30000 — not the claimed
1 s, 2 s, 4 s; the `connected` acknowledgment does still reset the stored
delay, so the failure after it observes 1000 then 2000. -/
theorem c7_reconnect_backoff_bug :
    hookObservedDelays RETRY_INIT [ConnEvent.failure] = [1000, 2000] ∧
    hookObservedDelays RETRY_INIT
        [ConnEvent.failure, ConnEvent.failure, ConnEvent.failure] =
      [1000, 2000, 4000, 8000, 16000, 30000] ∧
    hookObservedDelays RETRY_INIT
        [ConnEvent.failure, ConnEvent.failure, ConnEvent.failure] ≠
      [1000, 2000, 4000] ∧
    hookObservedDelays RETRY_INIT
        [ConnEvent.failure, ConnEvent.failure, ConnEvent.failure,
          ConnEvent.connectedAck, ConnEvent.failure] =
      [1000, 2000, 4000, 8000, 16000, 30000, 1000, 2000] :=
  ⟨by decide, by decide, by decide, by decide⟩

/-- C8: for every valid multi-segment path with no existing entry at the
leaf, the first Mkdir succeeds and its resulting state contains every
nonempty prefix of the path as a directory (all missing ancestors plus
the leaf); a second Mkdir of the identical path fails with Conflict and
changes nothing. -/
theorem c8_mkdir_idempotent_ancestors (fs : WorkspaceFS) (path : String)
    (segs : List String)
    (hres : safeResolveNewPath path = some segs) (hmem : ¬ fsMem fs segs) :
    (mkdirOp fs path none).1 = Resp.ok path ∧
    (∀ i < segs.length, segs.take (i + 1) ∈ (mkdirOp fs path none).2.dirs) ∧
    (∀ io : Option String, mkdirOp (mkdirOp fs path none).2 path io =
      (Resp.err 409 "Directory already exists", (mkdirOp fs path none).2)) := by
  have hok := mkdirOp_ok hres hmem
  refine ⟨by rw [hok], ?_, ?_⟩
  · intro i hi
    rw [hok]
    exact mem_dirs_mkdirp fs segs i hi
  · intro io
    rw [hok]
    exact mkdirOp_conflict hres
      (fsMem_mkdirp_self fs segs (safeResolveNewPath_eq_some hres).2)

/-- C8 witness: `mkdir("a/b/c")` on an empty workspace succeeds creating
`a`, `a/b` and `a/b/c`; the second identical call fails with Conflict
and leaves the state as after the first call. -/
theorem c8_mkdir_idempotent_ancestors_witness :
    (mkdirOp ⟨[], []⟩ "a/b/c" none).1 = Resp.ok "a/b/c" ∧
    ["a"] ∈ (mkdirOp ⟨[], []⟩ "a/b/c" none).2.dirs ∧
    ["a", "b"] ∈ (mkdirOp ⟨[], []⟩ "a/b/c" none).2.dirs ∧
    ["a", "b", "c"] ∈ (mkdirOp ⟨[], []⟩ "a/b/c" none).2.dirs ∧
    mkdirOp (mkdirOp ⟨[], []⟩ "a/b/c" none).2 "a/b/c" none =
      (Resp.err 409 "Directory already exists", (mkdirOp ⟨[], []⟩ "a/b/c" none).2) := by
  have h := c8_mkdir_idempotent_ancestors ⟨[], []⟩ "a/b/c" ["a", "b", "c"]
    (by decide) (by decide)
  exact ⟨h.1, h.2.1 0 (by decide), h.2.1 1 (by decide), h.2.1 2 (by decide),
    h.2.2 none⟩

/-- C9: with no destination supplied, the copy route derives the new name
by inserting `" copy"` before the extension when the base name has one
(the stem and extension recompose to the original name) and appending
`" copy"` otherwise; end to end, copying the file `report.pdf` yields
`report copy.pdf` beside it and copying the directory `notes` yields
`notes copy`. -/
theorem c9_copy_autoname :
    (∀ name : String, extname name ≠ "" →
      stemOf name ++ extname name = name ∧
      autoCopyName name = stemOf name ++ " copy" ++ extname name) ∧
    (∀ name : String, extname name = "" →
      autoCopyName name = name ++ " copy") ∧
    copyOp ⟨[], [(["report.pdf"], "P")]⟩ "report.pdf" none none =
      (Resp.ok ⟨"report.pdf", "report copy.pdf"⟩,
        ⟨[], [(["report.pdf"], "P"), (["report copy.pdf"], "P")]⟩) ∧
    copyOp ⟨[["notes"]], []⟩ "notes" none none =
      (Resp.ok ⟨"notes", "notes copy"⟩, ⟨[["notes"], ["notes copy"]], []⟩) := by
  refine ⟨?_, ?_, by decide, by decide⟩
  · exact fun name h => ⟨stemOf_append_extname h, autoCopyName_of_ext h⟩
  · exact fun name h => autoCopyName_of_no_ext h

/-- C9 witness: the stem/extension split of `report.pdf` recomposes to
the name, and the extensionless `notes` gets `" copy"` appended. -/
theorem c9_copy_autoname_witness :
    stemOf "report.pdf" ++ extname "report.pdf" = "report.pdf" ∧
    autoCopyName "notes" = "notes" ++ " copy" :=
  ⟨(c9_copy_autoname.1 "report.pdf" (by decide)).1,
   c9_copy_autoname.2.1 "notes" (by decide)⟩

/-- C10: the file-write route performs only path validation and never
consults the system-file classifier: for every path whose base name
matches the system patterns but which resolves inside the root, the write
succeeds and the file's content afterwards is the new content — while
Delete, Rename and Move refuse the same path with SystemFileProtected. -/
theorem c10_write_ignores_system (rel content : String) (segs : List String)
    (hsys : isSystemFile rel = true) (hres : safeResolveNewPath rel = some segs) :
    ∀ fs : WorkspaceFS,
      (writeOp fs rel content none).1 = Resp.ok rel ∧
      fileContent (writeOp fs rel content none).2 segs = some content ∧
      (∀ io : Option String,
        deleteOp fs rel io = (Resp.err 403 "Cannot delete system file", fs)) ∧
      (∀ (nn : String) (io : Option String), nn ≠ "" →
        renameOp fs rel nn io = (Resp.err 403 "Cannot rename system file", fs)) ∧
      (∀ (dd : String) (io : Option String), dd ≠ "" →
        moveOp fs rel dd io = (Resp.err 403 "Cannot move system file", fs)) := by
  intro fs
  have hw := @writeOp_ok fs rel content segs hres
  refine ⟨by rw [hw], ?_, fun io => deleteOp_system hsys,
    fun nn io hnn => renameOp_system hsys hnn,
    fun dd io hdd => moveOp_system hsys hdd⟩
  rw [hw]
  exact fileContent_write _ segs content

/-- C10 witness: writing to the existing system file `workspace.duckdb`
succeeds and replaces its content, while Delete on the same path is
refused. -/
theorem c10_write_ignores_system_witness :
    (writeOp ⟨[], [(["workspace.duckdb"], "old")]⟩ "workspace.duckdb" "new" none).1 =
      Resp.ok "workspace.duckdb" ∧
    fileContent
      (writeOp ⟨[], [(["workspace.duckdb"], "old")]⟩ "workspace.duckdb" "new" none).2
      ["workspace.duckdb"] = some "new" ∧
    deleteOp ⟨[], [(["workspace.duckdb"], "old")]⟩ "workspace.duckdb" none =
      (Resp.err 403 "Cannot delete system file",
        ⟨[], [(["workspace.duckdb"], "old")]⟩) := by
  have h := c10_write_ignores_system "workspace.duckdb" "new" ["workspace.duckdb"]
    (by decide) (by decide) ⟨[], [(["workspace.duckdb"], "old")]⟩
  exact ⟨h.1, h.2.1, h.2.2.1 none⟩
